import Mathlib

/-!
Verification of the node lifecycle tracker and collection-cycle scheduler of
the auto meshtastic logger (`auto_meshtastic_logger.py` together with the
`core` package).  Python dicts are embedded as association lists (insertion
ordered, update-in-place on existing keys, like CPython), python sets as
duplicate-free lists with add-if-absent, timestamps as integers counting
seconds, and the radio CLI as oracles supplied per cycle.  The several
`datetime.now()` calls inside one collection cycle are collapsed to the one
cycle time `now`; nothing proved below depends on sub-cycle clock drift.
-/

namespace AutoLogger

/-- Lookup in a python-dict-as-association-list: first binding of the key. -/
def dlookup {α : Type} : List (String × α) → String → Option α
  | [], _ => none
  | (k, v) :: rest, key => if k = key then some v else dlookup rest key

/-- Python dict assignment `d[key] = val`: update the existing binding in
place, or append a new binding (CPython preserves insertion order). -/
def dinsert {α : Type} : List (String × α) → String → α → List (String × α)
  | [], key, val => [(key, val)]
  | (k, v) :: rest, key, val =>
    if k = key then (k, val) :: rest else (k, v) :: dinsert rest key val

/-- Python set `add`: append the element unless already present. -/
def sadd (l : List String) (x : String) : List String :=
  if x ∈ l then l else l ++ [x]

/-- Sum of the values of a counts dict (python `sum(d.values())`). -/
def countsSum (l : List (String × Nat)) : Nat :=
  (l.map Prod.snd).sum

/-- The mutable tracker state of `AutoMeshtasticLogger.__init__`
(lines 63-74): node sets, per-node dicts and aggregate counters. -/
structure LoggerState where
  discovered_nodes : List String
  active_nodes : List String
  completed_nodes : List String
  node_last_seen : List (String × Int)
  node_telemetry_count : List (String × Nat)
  node_completion_time : List (String × Int)
  total_cycles : Nat
  total_telemetry_collected : Nat
  total_traceroutes : Nat
deriving DecidableEq, Repr

/-- The configuration surface of `main()` that the tracker and scheduler
read (argparse options). -/
structure Config where
  min_telemetry_count : Nat
  completion_timeout : Int
  no_trace : Bool
  plot_every_cycle : Bool
  plot_on_completion : Bool
  stop_when_all_complete : Bool
deriving DecidableEq, Repr

/-- Embeds `AutoMeshtasticLogger._check_node_completion`: requires
`node_telemetry_count.get(node, 0) >= min_telemetry_count`, and then
`last_seen` present with `now - last_seen > completion_timeout`
(the source comparison is strict `>`). -/
def check_node_completion (cfg : Config) (now : Int) (s : LoggerState)
    (node : String) : Bool :=
  let telemetry_count := (dlookup s.node_telemetry_count node).getD 0
  if telemetry_count < cfg.min_telemetry_count then
    false
  else
    match dlookup s.node_last_seen node with
    | some last_seen => decide (now - last_seen > cfg.completion_timeout)
    | none => false

/-- The per-node loop of `AutoMeshtasticLogger._discover_nodes`: for every
id in the discovery result set `node_last_seen[id] = now` and add it to
`active_nodes` unless it is already completed. -/
def discover_seen_pass (now : Int) : List String → LoggerState → LoggerState
  | [], s => s
  | node :: rest, s =>
    discover_seen_pass now rest
      { s with
        node_last_seen := dinsert s.node_last_seen node now,
        active_nodes :=
          if node ∈ s.completed_nodes then s.active_nodes
          else sadd s.active_nodes node }

/-- Embeds the state update of `AutoMeshtasticLogger._discover_nodes` given
the node list returned by the radio: extend `discovered_nodes` with the new
ids, then run the per-node loop. -/
def discover_nodes_update (now : Int) (nodes : List String)
    (s : LoggerState) : LoggerState :=
  discover_seen_pass now nodes
    { s with discovered_nodes := nodes.foldl sadd s.discovered_nodes }

/-- One telemetry row as appended to the telemetry CSV inside
`_collect_cycle_data`: cycle timestamp, node id, and the metrics dict the
row columns are projected from. -/
structure TeleRow where
  ts : Int
  node : String
  data : List (String × Int)
deriving DecidableEq, Repr

/-- One iteration of the loop in `core.telemetry.collect_telemetry_batch`:
run `collect_telemetry_cli` (abstracted as the `oracle`; `none` = failure,
`some []` = empty parse result) and keep the node in the results dict only
when the returned telemetry dict is truthy (non-empty). -/
def tele_step (oracle : List (String × List (String × Int))) (node : String)
    (results : List (String × List (String × Int))) :
    List (String × List (String × Int)) :=
  match dlookup oracle node with
  | some tele => if tele.isEmpty then results else dinsert results node tele
  | none => results

def collect_telemetry_pass (oracle : List (String × List (String × Int))) :
    List String → List (String × List (String × Int)) →
      List (String × List (String × Int))
  | [], results => results
  | node :: rest, results =>
    collect_telemetry_pass oracle rest (tele_step oracle node results)

/-- The results dict of `collect_telemetry_batch`, starting empty. -/
def collect_telemetry_batch (oracle : List (String × List (String × Int)))
    (nodes : List String) : List (String × List (String × Int)) :=
  collect_telemetry_pass oracle nodes []

/-- Embeds the telemetry logging loop of `_collect_cycle_data`
(`for node_id, tele in telemetry_data.items(): if tele: append_row(...);
node_telemetry_count[node_id] += 1`), returning the updated state and the
appended rows in order. -/
def telemetry_log_pass (cycle_ts : Int) :
    List (String × List (String × Int)) → LoggerState →
      LoggerState × List TeleRow
  | [], s => (s, [])
  | item :: rest, s =>
    if item.2.isEmpty then
      telemetry_log_pass cycle_ts rest s
    else
      let s1 := { s with
        node_telemetry_count :=
          dinsert s.node_telemetry_count item.1
            ((dlookup s.node_telemetry_count item.1).getD 0 + 1) }
      ((telemetry_log_pass cycle_ts rest s1).1,
        ⟨cycle_ts, item.1, item.2⟩ :: (telemetry_log_pass cycle_ts rest s1).2)

/-- The telemetry section of `_collect_cycle_data` (lines 193-230): log the
batch result, then `total_telemetry_collected += telemetry_collected`. -/
def telemetry_stage (cycle_ts : Int)
    (batch : List (String × List (String × Int))) (s : LoggerState) :
    LoggerState × List TeleRow :=
  let p := telemetry_log_pass cycle_ts batch s
  ({ p.1 with
      total_telemetry_collected :=
        p.1.total_telemetry_collected + p.2.length },
    p.2)

/-- Dynamically typed python values, as far as the traceroute data flow
needs them: strings, numbers, lists/tuples, and string-keyed dicts. -/
inductive PyVal where
  | pstr : String → PyVal
  | pnum : Int → PyVal
  | plist : List PyVal → PyVal
  | pdict : List (String × PyVal) → PyVal

/-- Python `for x in v`: iterating a dict yields its KEYS (as strings),
iterating a list its elements, iterating a string its characters; numbers
are not iterable (`TypeError`). -/
def PyVal.iter : PyVal → Except String (List PyVal)
  | .pdict kvs => .ok (kvs.map fun kv => .pstr kv.1)
  | .plist xs => .ok xs
  | .pstr s => .ok (s.data.map fun c => .pstr (String.mk [c]))
  | .pnum _ => .error "TypeError"

/-- Python `v.get(key, default)`: defined on dicts only; on any other value
attribute lookup of `get` raises `AttributeError`. -/
def PyVal.get (v : PyVal) (key : String) (dflt : PyVal) :
    Except String PyVal :=
  match v with
  | .pdict kvs => .ok ((dlookup kvs key).getD dflt)
  | _ => .error "AttributeError"

/-- One hop parsed out of the CLI traceroute output: (from, to, quality). -/
abbrev Hop := String × String × Int

/-- The python value built by `core.traceroute._parse_traceroute_output`
for one destination: a dict holding the forward and backward hop tuples. -/
def mkTraceDict (fwd bwd : List Hop) : PyVal :=
  .pdict
    [("forward", .plist (fwd.map fun h =>
        .plist [.pstr h.1, .pstr h.2.1, .pnum h.2.2])),
     ("back", .plist (bwd.map fun h =>
        .plist [.pstr h.1, .pstr h.2.1, .pnum h.2.2]))]

/-- The loop of `core.traceroute.collect_traceroute_batch`: per destination
in order, `collect_traceroute_cli` (abstracted as the `oracle`) yields the
parsed dict only when the forward or the backward hop list is non-empty;
truthy results are stored in the results dict. -/
def collect_traceroute_pass (oracle : List (String × (List Hop × List Hop))) :
    List String → List (String × PyVal) → List (String × PyVal)
  | [], results => results
  | node :: rest, results =>
    collect_traceroute_pass oracle rest
      (match dlookup oracle node with
       | some fb =>
         if fb.1.isEmpty && fb.2.isEmpty then results
         else dinsert results node (mkTraceDict fb.1 fb.2)
       | none => results)

/-- The results dict of `collect_traceroute_batch`, starting empty. -/
def collect_traceroute_batch (oracle : List (String × (List Hop × List Hop)))
    (nodes : List String) : List (String × PyVal) :=
  collect_traceroute_pass oracle nodes []

/-- The row-construction expression of the traceroute logging loop in
`_collect_cycle_data`: `[cycle_ts, trace.get("dest", dest), ...]`.  The
arguments of `append_row` are evaluated left to right, each via `.get` on
the loop item, before anything is appended. -/
def traceRowOf (cycle_ts : Int) (dest : String) (trace : PyVal) :
    Except String (List PyVal) := do
  let d ← trace.get "dest" (.pstr dest)
  let dir ← trace.get "direction" (.pstr "")
  let hop ← trace.get "hop_index" (.pstr "")
  let f ← trace.get "from" (.pstr "")
  let t ← trace.get "to" (.pstr "")
  let q ← trace.get "link_db" (.pstr "")
  .ok [.pnum cycle_ts, d, dir, hop, f, t, q]

/-- The inner loop `for trace in traces: append_row(...)` of
`_collect_cycle_data`, over the already-produced iteration items. -/
def traceRowsOfItems (cycle_ts : Int) (dest : String) :
    List PyVal → Except String (List (List PyVal))
  | [] => .ok []
  | tr :: rest => do
    let row ← traceRowOf cycle_ts dest tr
    let rows ← traceRowsOfItems cycle_ts dest rest
    .ok (row :: rows)

/-- The outer loop `for dest, traces in traceroute_data.items(): for trace
in traces: append_row(...)` of `_collect_cycle_data` (lines 239-250).  An
uncaught exception aborts the whole loop; because every `traces` value the
producer builds is a two-key dict, a raise can only happen at the very
first item of the very first destination, before any row is appended, so
returning no rows on error loses nothing. -/
def traceConsume (cycle_ts : Int) :
    List (String × PyVal) → Except String (List (List PyVal))
  | [] => .ok []
  | (dest, traces) :: rest => do
    let items ← traces.iter
    let rows ← traceRowsOfItems cycle_ts dest items
    let more ← traceConsume cycle_ts rest
    .ok (rows ++ more)

/-- The loop of `AutoMeshtasticLogger._update_node_completion_status` over
`list(self.active_nodes)`: each node judged complete is removed from the
active set, added to the completed set, stamped in `node_completion_time`,
and collected into the newly-completed list. -/
def completion_pass (cfg : Config) (now : Int) :
    List String → LoggerState → LoggerState × List String
  | [], s => (s, [])
  | node :: rest, s =>
    if check_node_completion cfg now s node then
      let s1 := { s with
        active_nodes := s.active_nodes.erase node,
        completed_nodes := sadd s.completed_nodes node,
        node_completion_time := dinsert s.node_completion_time node now }
      ((completion_pass cfg now rest s1).1,
        node :: (completion_pass cfg now rest s1).2)
    else
      completion_pass cfg now rest s

/-- Embeds `AutoMeshtasticLogger._update_node_completion_status`, returning
the updated state and the newly-completed node list. -/
def update_node_completion_status (cfg : Config) (now : Int)
    (s : LoggerState) : LoggerState × List String :=
  completion_pass cfg now s.active_nodes s

/-- What the radio and the clock supply to one collection cycle: the cycle
time, the discovery result, the per-node telemetry and traceroute oracles,
and whether the report timer has elapsed when the loop checks it. -/
structure CycleEnv where
  now : Int
  nodes : List String
  tele : List (String × List (String × Int))
  trace : List (String × (List Hop × List Hop))
  plotDue : Bool

/-- The observable outcome of one successful `_collect_cycle_data` call. -/
structure CycleOut where
  state : LoggerState
  collected : Bool
  teleRows : List TeleRow
  traceRows : List (List PyVal)
  newlyCompleted : List String

/-- Embeds `AutoMeshtasticLogger._collect_cycle_data`.  The cycle counter
is incremented first; an empty discovery result returns `collected = false`
immediately; otherwise telemetry is batch-collected FOR THE DISCOVERY
RESULT list, logged, and counted; then, unless disabled, the traceroute
batch is collected and its consumer loop runs — an exception there escapes
the method, leaving the mutations made so far in place (the `.error` value
carries that state). -/
def runCycle (cfg : Config) (env : CycleEnv) (s : LoggerState) :
    Except LoggerState CycleOut :=
  let s1 := { s with total_cycles := s.total_cycles + 1 }
  let s2 := discover_nodes_update env.now env.nodes s1
  if env.nodes.isEmpty then
    .ok ⟨s2, false, [], [], []⟩
  else
    let batch := collect_telemetry_batch env.tele env.nodes
    let p := telemetry_stage env.now batch s2
    match
      (if cfg.no_trace then Except.ok ([] : List (List PyVal))
       else traceConsume env.now
              (collect_traceroute_batch env.trace env.nodes)) with
    | .error _ => .error p.1
    | .ok traceRows =>
      let s4 := { p.1 with
        total_traceroutes := p.1.total_traceroutes + traceRows.length }
      let u := update_node_completion_status cfg env.now s4
      .ok ⟨u.1, decide (0 < p.2.length) || decide (0 < traceRows.length),
        p.2, traceRows, u.2⟩

/-- The tracker state a cycle leaves behind, whether it returned normally
or raised (python mutates `self` in place, so the partial mutations of a
raising cycle persist). -/
def cycleState (cfg : Config) (env : CycleEnv) (s : LoggerState) :
    LoggerState :=
  match runCycle cfg env s with
  | .error s1 => s1
  | .ok out => out.state

/-- Tracker state after a sequence of collection cycles. -/
def stateAfter (cfg : Config) (envs : List CycleEnv) (s : LoggerState) :
    LoggerState :=
  envs.foldl (fun st env => cycleState cfg env st) s

/-- The loop-exit test of `AutoMeshtasticLogger.run` (line 315):
`stop_when_all_complete and active_count == 0 and completed_count > 0`. -/
def stopCond (cfg : Config) (s : LoggerState) : Bool :=
  cfg.stop_when_all_complete && s.active_nodes.isEmpty &&
    !s.completed_nodes.isEmpty

/-- Observable scheduler events: a collection cycle ran, an in-loop report
generation ran, or the one final report generation after the loop ran. -/
inductive Event where
  | cyc : Event
  | report : Event
  | finalReport : Event
deriving DecidableEq, Repr

/-- In-loop report generations caused by one successful cycle, in order:
the completion-triggered plot inside `_update_node_completion_status`, then
the periodic / every-cycle plot check of `run` (line 305). -/
def cycleEvents (cfg : Config) (out : CycleOut) (plotDue : Bool) :
    List Event :=
  (if cfg.plot_on_completion && !out.newlyCompleted.isEmpty then
    [Event.report] else []) ++
  (if plotDue || (out.collected && cfg.plot_every_cycle) then
    [Event.report] else [])

/-- Embeds the `while not self.stop_requested` loop of
`AutoMeshtasticLogger.run`: each iteration runs one cycle; a raising cycle
is caught and the loop just continues (no plot or stop check); otherwise
plots may run and the `stop_when_all_complete` test may break the loop.
Exhaustion of the supplied cycle environments models `stop_requested`
being observed during the inter-cycle sleep. -/
def runLoop (cfg : Config) :
    List CycleEnv → LoggerState → LoggerState × List Event
  | [], s => (s, [])
  | env :: rest, s =>
    match runCycle cfg env s with
    | .error s1 =>
      ((runLoop cfg rest s1).1, Event.cyc :: (runLoop cfg rest s1).2)
    | .ok out =>
      if stopCond cfg out.state then
        (out.state, Event.cyc :: cycleEvents cfg out env.plotDue)
      else
        ((runLoop cfg rest out.state).1,
          Event.cyc :: (cycleEvents cfg out env.plotDue ++
            (runLoop cfg rest out.state).2))

/-- Embeds `AutoMeshtasticLogger.run`: the loop, then exactly one final
report generation (`_run_plotting`) and a final statistics flush. -/
def runMain (cfg : Config) (envs : List CycleEnv) (s : LoggerState) :
    LoggerState × List Event :=
  ((runLoop cfg envs s).1, (runLoop cfg envs s).2 ++ [Event.finalReport])

/-- Number of occurrences of one event kind in a trace. -/
def countEv (ev : Event) (l : List Event) : Nat :=
  (l.filter fun x => x = ev).length

/-- The JSON document written by `AutoMeshtasticLogger._save_stats`
(lines 97-108), field for field.  Note it carries no `node_last_seen` and
no discovery timestamps. -/
structure Snapshot where
  start_time : Int
  current_time : Int
  total_cycles : Nat
  total_telemetry_collected : Nat
  total_traceroutes : Nat
  discovered_nodes : List String
  active_nodes : List String
  completed_nodes : List String
  node_telemetry_counts : List (String × Nat)
  node_completion_times : List (String × Int)
deriving DecidableEq, Repr

/-- Embeds `AutoMeshtasticLogger._save_stats`: serialize the tracker state
and run statistics into the stats document. -/
def save_stats (start_time now : Int) (s : LoggerState) : Snapshot :=
  ⟨start_time, now, s.total_cycles, s.total_telemetry_collected,
    s.total_traceroutes, s.discovered_nodes, s.active_nodes,
    s.completed_nodes, s.node_telemetry_count, s.node_completion_time⟩

/-- Modelled from the spec: `restore(snapshot)` (spec section 4.1) has no
implementation in the source — only `snapshot()` (`_save_stats`) exists.
Per the spec, restoring reconstructs the registry from the persisted
snapshot document, whose fields (spec section 6) are exactly those of
`Snapshot`; `node_last_seen` is not among them, so the restored registry
has no last-seen entries. -/
def restore (snap : Snapshot) : LoggerState :=
  { discovered_nodes := snap.discovered_nodes,
    active_nodes := snap.active_nodes,
    completed_nodes := snap.completed_nodes,
    node_last_seen := [],
    node_telemetry_count := snap.node_telemetry_counts,
    node_completion_time := snap.node_completion_times,
    total_cycles := snap.total_cycles,
    total_telemetry_collected := snap.total_telemetry_collected,
    total_traceroutes := snap.total_traceroutes }

/-- Modelled from the spec: restoring replaces the current registry wholly
with the one reconstructed from the snapshot. -/
def restoreInto (snap : Snapshot) (_current : LoggerState) : LoggerState :=
  restore snap

/-- The three tracker-mutating operations a collection cycle is composed
of, as an operation alphabet for the lifecycle-monotonicity statement. -/
inductive TrackerOp where
  | discover : Int → List String → TrackerOp
  | telemetry : Int → List (String × List (String × Int)) →
      List String → TrackerOp
  | completion : Config → Int → TrackerOp

/-- Apply one tracker operation, through the very functions `runCycle`
uses. -/
def applyOp (s : LoggerState) : TrackerOp → LoggerState
  | .discover now nodes => discover_nodes_update now nodes s
  | .telemetry ts oracle nodes =>
    (telemetry_stage ts (collect_telemetry_batch oracle nodes) s).1
  | .completion cfg now => (update_node_completion_status cfg now s).1

/-- Apply a sequence of tracker operations. -/
def applyOps (s : LoggerState) : List TrackerOp → LoggerState
  | [] => s
  | op :: rest => applyOps (applyOp s op) rest

/-- Lifecycle rank of a node: Completed (2) beats Active (1) beats merely
Discovered-or-unknown (0). -/
def lifecycleRank (s : LoggerState) (n : String) : Nat :=
  if n ∈ s.completed_nodes then 2
  else if n ∈ s.active_nodes then 1
  else 0

/-! ## Basic lemmas about the dict and set embeddings -/

theorem dlookup_dinsert_self {α : Type} (l : List (String × α))
    (k : String) (v : α) : dlookup (dinsert l k v) k = some v := by
  induction l with
  | nil => simp [dinsert, dlookup]
  | cons hd tl ih =>
    by_cases h : hd.1 = k
    · simp [dinsert, dlookup, h]
    · simp [dinsert, dlookup, h, ih]

theorem dlookup_dinsert_ne {α : Type} (l : List (String × α))
    (k k' : String) (v : α) (h : k ≠ k') :
    dlookup (dinsert l k v) k' = dlookup l k' := by
  induction l with
  | nil => simp [dinsert, dlookup, h]
  | cons hd tl ih =>
    by_cases hh : hd.1 = k
    · simp [dinsert, dlookup, hh, h]
    · have h' : ¬ (k' = k) := fun e => h e.symm
      by_cases hh' : hd.1 = k'
      · simp [dinsert, dlookup, hh, hh', h']
      · simp [dinsert, dlookup, hh, hh', h', ih]

theorem mem_sadd (l : List String) (x a : String) :
    a ∈ sadd l x ↔ a ∈ l ∨ a = x := by
  unfold sadd
  by_cases h : x ∈ l
  · simp only [if_pos h]
    constructor
    · exact Or.inl
    · rintro (ha | rfl)
      · exact ha
      · exact h
  · simp [if_neg h]

theorem mem_sadd_of_mem (l : List String) (x a : String) (h : a ∈ l) :
    a ∈ sadd l x := (mem_sadd l x a).mpr (Or.inl h)

theorem countsSum_bump (l : List (String × Nat)) (k : String) :
    countsSum (dinsert l k ((dlookup l k).getD 0 + 1)) = countsSum l + 1 := by
  induction l with
  | nil => simp [dinsert, dlookup, countsSum]
  | cons hd tl ih =>
    by_cases h : hd.1 = k
    · simp [dinsert, dlookup, h, countsSum]
      omega
    · simp only [dinsert, dlookup, if_neg h, countsSum, List.map_cons,
        List.sum_cons] at ih ⊢
      omega

/-! ## Claim C1 — the completion decision -/

/-- Configuration of the spec scenario for C1: `min_sample_count = 3`,
`completion_timeout = 1800` (traceroute disabled, plain flags). -/
def cfgStrict : Config := ⟨3, 1800, true, false, false, false⟩

/-- Tracker state of the spec scenario for C1: node `N1` sampled 3 times,
last seen at `t0 + 10` with `t0 = 0`. -/
def stateN1 : LoggerState :=
  ⟨["N1"], ["N1"], [], [("N1", 10)], [("N1", 3)], [], 0, 0, 0⟩

/-- Claim C1 as stated is false on the code: in the spec scenario (node
last seen at 10 with 3 of 3 samples, timeout 1800), at `now = 10 + 1800`
the spec conjunction with inclusive bound holds — the sample count reaches
the threshold and `now - last_seen_at ≥ completion_timeout` — yet
`_check_node_completion` returns false, because the source compares the
elapsed time with strict `>`. -/
theorem C1_counterexample :
    check_node_completion cfgStrict 1810 stateN1 "N1" = false ∧
    cfgStrict.min_telemetry_count ≤
      (dlookup stateN1.node_telemetry_count "N1").getD 0 ∧
    (1810 : Int) - 10 ≥ cfgStrict.completion_timeout := by
  refine ⟨by decide, by decide, by decide⟩

/-- Claim C1, amended: for every node record (with a recorded last-seen
time), configuration and time `now`, `_check_node_completion` returns true
iff `telemetry_sample_count ≥ min_sample_count` AND
`(now - last_seen_at) > completion_timeout` — the time bound is strict, so
a node last seen at `t` with enough samples is judged incomplete at
`t + completion_timeout` and complete at `t + completion_timeout + 1`. -/
theorem C1_completion_decision (cfg : Config) (now lastSeen : Int)
    (s : LoggerState) (node : String)
    (hl : dlookup s.node_last_seen node = some lastSeen) :
    check_node_completion cfg now s node = true ↔
      (cfg.min_telemetry_count ≤
          (dlookup s.node_telemetry_count node).getD 0 ∧
        cfg.completion_timeout < now - lastSeen) := by
  simp only [check_node_completion, hl]
  by_cases h :
      (dlookup s.node_telemetry_count node).getD 0 < cfg.min_telemetry_count
  · simp only [if_pos h, Bool.false_eq_true, false_iff, not_and]
    intro hle
    omega
  · simp only [if_neg h, decide_eq_true_eq, gt_iff_lt, iff_def]
    constructor
    · intro ht
      exact ⟨by omega, ht⟩
    · intro ht
      exact ht.2

/-- Witness for C1: the boundary instances of the spec scenario, at
`now = 1810` (not complete) and `now = 1811` (complete). -/
theorem C1_witness :
    (check_node_completion cfgStrict 1811 stateN1 "N1" = true) ∧
    ¬ (check_node_completion cfgStrict 1810 stateN1 "N1" = true) := by
  constructor
  · exact (C1_completion_decision cfgStrict 1811 10 stateN1 "N1"
      (by decide)).mpr ⟨by decide, by decide⟩
  · intro h
    have := (C1_completion_decision cfgStrict 1810 10 stateN1 "N1"
      (by decide)).mp h
    exact absurd this (by decide)

/-! ## Claim C7 — never-sampled nodes -/

/-- Configuration with `min_telemetry_count = 0`, a recognized value of the
integer `--min-telemetry-count` option. -/
def cfgMinZero : Config := ⟨0, 10, true, false, false, false⟩

/-- Node `N2` discovered (last seen at 0) but never sampled. -/
def stateN2 : LoggerState :=
  ⟨["N2"], ["N2"], [], [("N2", 0)], [], [], 0, 0, 0⟩

/-- Claim C7 as stated is false on the code: it quantifies over every
configuration, but with `min_telemetry_count = 0` a never-sampled node
(sample count 0) IS judged complete once it has been silent longer than
the timeout. -/
theorem C7_counterexample :
    check_node_completion cfgMinZero 100 stateN2 "N2" = true ∧
    (dlookup stateN2.node_telemetry_count "N2").getD 0 = 0 := by
  refine ⟨by decide, by decide⟩

/-- Claim C7, amended: whenever the configured minimum sample count is at
least 1 (the option defaults to 3), a node with telemetry sample count 0
is never judged complete, for every timeout and every time `now`. -/
theorem C7_never_sampled_never_completes (cfg : Config) (now : Int)
    (s : LoggerState) (node : String)
    (hmin : 1 ≤ cfg.min_telemetry_count)
    (hcnt : (dlookup s.node_telemetry_count node).getD 0 = 0) :
    check_node_completion cfg now s node = false := by
  simp only [check_node_completion, hcnt, if_pos (by omega :
    (0 : Nat) < cfg.min_telemetry_count)]

/-- Witness for C7: the default configuration (minimum 3) on the
never-sampled node `N2`, at a time far past any silence timeout. -/
theorem C7_witness :
    check_node_completion cfgStrict 1000000 stateN2 "N2" = false := by
  exact C7_never_sampled_never_completes cfgStrict 1000000 stateN2 "N2"
    (by decide) (by decide)

/-! ## Claim C2 — the traceroute consumer loop -/

/-- Configuration with traceroute collection enabled. -/
def cfgTraceOn : Config := ⟨3, 1800, false, false, false, false⟩

/-- A fresh tracker state (right after `__init__`). -/
def stateEmpty : LoggerState := ⟨[], [], [], [], [], [], 0, 0, 0⟩

/-- One cycle whose traceroute batch returns a single forward hop for the
one discovered node (no telemetry). -/
def envOneHop : CycleEnv :=
  ⟨100, ["!a1"], [], [("!a1", ([("!me", "!a1", -6)], []))], false⟩

/-- The state `_collect_cycle_data` leaves behind when it raises on
`envOneHop` from `stateEmpty`: cycle counted, discovery recorded, but no
traceroute row appended and `total_traceroutes` untouched. -/
def stateCrash : LoggerState :=
  ⟨["!a1"], ["!a1"], [], [("!a1", 100)], [], [], 1, 0, 0⟩

/-- Claim C2 fails on the code (code bug): with traceroute enabled and a
non-empty traceroute batch result — here one forward hop for one target —
the consumer loop `for dest, traces in traceroute_data.items(): for trace
in traces:` iterates over the KEYS of the per-target direction dict, so
`trace` is the string `"forward"` and `trace.get("dest", dest)` raises
`AttributeError` before any row is appended: the cycle aborts with the
partial state `stateCrash` and appends no traceroute row at all, while the
claim (and the CSV header plus the sibling implementation in
`meshtastic_telemetry_logger.py`) expect one row per hop. -/
theorem C2_traceroute_consumer_crashes :
    traceConsume 100 (collect_traceroute_batch envOneHop.trace envOneHop.nodes)
        = .error "AttributeError" ∧
    collect_traceroute_batch envOneHop.trace envOneHop.nodes ≠ [] ∧
    runCycle cfgTraceOn envOneHop stateEmpty = .error stateCrash := by
  refine ⟨rfl, by intro h; simp [collect_traceroute_batch,
    collect_traceroute_pass, dlookup, envOneHop, dinsert] at h, rfl⟩

/-! ## Claim C6 — discovery failure skips the cycle -/

/-- A mid-run tracker state with non-trivial counters. -/
def stateMidRun : LoggerState :=
  ⟨["A"], ["A"], [], [("A", 5)], [("A", 2)], [], 7, 2, 0⟩

/-- A cycle in which discovery fails: `discover_all_nodes` swallows the
CLI error and returns the empty node list. -/
def envNoNodes : CycleEnv := ⟨100, [], [], [], false⟩

/-- Claim C6 as stated is false on the code: a failed-discovery cycle does
change tracker state — `total_cycles` is incremented before the discovery
check, so the run statistics differ after the skipped cycle. -/
theorem C6_counterexample :
    (cycleState cfgTraceOn envNoNodes stateMidRun).total_cycles = 8 ∧
    stateMidRun.total_cycles = 7 := by
  refine ⟨by decide, by decide⟩

/-- Claim C6, amended: when discovery returns no nodes, the cycle logs a
warning and returns immediately with `collected = false`, and every piece
of tracker state — node sets, per-node dicts, and all other counters — is
unchanged, except that `total_cycles` has been incremented by one (the
counter counts attempted cycles). -/
theorem C6_empty_discovery_skips_cycle (cfg : Config) (env : CycleEnv)
    (s : LoggerState) (h : env.nodes = []) :
    runCycle cfg env s =
      .ok ⟨{ s with total_cycles := s.total_cycles + 1 }, false, [], [], []⟩ := by
  simp [runCycle, discover_nodes_update, discover_seen_pass, h]

/-- Witness for C6: the empty-discovery cycle on the mid-run state. -/
theorem C6_witness :
    runCycle cfgTraceOn envNoNodes stateMidRun =
      .ok ⟨{ stateMidRun with total_cycles := 8 }, false, [], [], []⟩ := by
  exact C6_empty_discovery_skips_cycle cfgTraceOn envNoNodes stateMidRun rfl

/-! ## Claim C8 — what discovery does to Completed nodes -/

theorem discover_seen_pass_frame (now : Int) (nodes : List String)
    (s : LoggerState) :
    (discover_seen_pass now nodes s).completed_nodes = s.completed_nodes ∧
    (discover_seen_pass now nodes s).node_telemetry_count =
      s.node_telemetry_count ∧
    (discover_seen_pass now nodes s).node_completion_time =
      s.node_completion_time ∧
    (discover_seen_pass now nodes s).discovered_nodes = s.discovered_nodes ∧
    (discover_seen_pass now nodes s).total_cycles = s.total_cycles ∧
    (discover_seen_pass now nodes s).total_telemetry_collected =
      s.total_telemetry_collected ∧
    (discover_seen_pass now nodes s).total_traceroutes =
      s.total_traceroutes := by
  induction nodes generalizing s with
  | nil => simp [discover_seen_pass]
  | cons m rest ih =>
    simp only [discover_seen_pass]
    exact ih _

theorem discover_seen_pass_active_of_completed (now : Int)
    (nodes : List String) (s : LoggerState) (n : String)
    (hc : n ∈ s.completed_nodes) :
    (n ∈ (discover_seen_pass now nodes s).active_nodes ↔
      n ∈ s.active_nodes) := by
  induction nodes generalizing s with
  | nil => simp [discover_seen_pass]
  | cons m rest ih =>
    simp only [discover_seen_pass]
    by_cases hm : m ∈ s.completed_nodes
    · simp only [if_pos hm]
      exact ih
        { s with node_last_seen := dinsert s.node_last_seen m now,
                 active_nodes := s.active_nodes } hc
    · simp only [if_neg hm]
      have hmn : n ≠ m := fun e => hm (e ▸ hc)
      rw [ih
        { s with node_last_seen := dinsert s.node_last_seen m now,
                 active_nodes := sadd s.active_nodes m } hc, mem_sadd]
      constructor
      · rintro (h | h)
        · exact h
        · exact absurd h hmn
      · exact Or.inl

theorem discover_seen_pass_last_seen_stable (now : Int)
    (nodes : List String) (s : LoggerState) (n : String)
    (h : dlookup s.node_last_seen n = some now) :
    dlookup (discover_seen_pass now nodes s).node_last_seen n = some now := by
  induction nodes generalizing s with
  | nil => simpa [discover_seen_pass]
  | cons m rest ih =>
    simp only [discover_seen_pass]
    apply ih
    by_cases hm : m = n
    · subst hm
      simp [dlookup_dinsert_self]
    · simpa [dlookup_dinsert_ne _ _ _ _ hm]

theorem discover_seen_pass_last_seen (now : Int) (nodes : List String)
    (s : LoggerState) (n : String) (h : n ∈ nodes) :
    dlookup (discover_seen_pass now nodes s).node_last_seen n = some now := by
  induction nodes generalizing s with
  | nil => cases h
  | cons m rest ih =>
    simp only [discover_seen_pass]
    rcases List.mem_cons.mp h with h1 | h2
    · subst h1
      apply discover_seen_pass_last_seen_stable
      simp [dlookup_dinsert_self]
    · exact ih _ h2

/-- A state whose node `A` is already Completed, last seen at 5. -/
def stateCompA : LoggerState :=
  ⟨["A"], [], ["A"], [("A", 5)], [("A", 3)], [("A", 6)], 0, 0, 0⟩

/-- Claim C8 as stated is false on the code: a discovery result containing
an already-Completed node DOES change that node record — the loop in
`_discover_nodes` sets `node_last_seen[node] = now` unconditionally before
testing membership in the completed set, so the Completed node `A`, last
seen at 5, has `last_seen_at = 10` after a discovery at time 10. -/
theorem C8_counterexample :
    "A" ∈ stateCompA.completed_nodes ∧
    dlookup stateCompA.node_last_seen "A" = some 5 ∧
    dlookup (discover_nodes_update 10 ["A"] stateCompA).node_last_seen "A" =
      some 10 := by
  refine ⟨by decide, by decide, by decide⟩

/-- Claim C8, amended: for a node that is already Completed when discovery
runs, the discovery call leaves the completed set, the node's membership in
the active set, its telemetry count and its completion time unchanged — but
it DOES refresh `last_seen_at` to the discovery time whenever the node id
appears in the result (non-Completed existing nodes additionally join the
active set, as before). -/
theorem C8_completed_node_discovery (now : Int) (nodes : List String)
    (s : LoggerState) (n : String) (hc : n ∈ s.completed_nodes) :
    (discover_nodes_update now nodes s).completed_nodes =
      s.completed_nodes ∧
    ((n ∈ (discover_nodes_update now nodes s).active_nodes) ↔
      n ∈ s.active_nodes) ∧
    (discover_nodes_update now nodes s).node_telemetry_count =
      s.node_telemetry_count ∧
    (discover_nodes_update now nodes s).node_completion_time =
      s.node_completion_time ∧
    (n ∈ nodes →
      dlookup (discover_nodes_update now nodes s).node_last_seen n =
        some now) := by
  unfold discover_nodes_update
  refine ⟨(discover_seen_pass_frame now nodes _).1,
    discover_seen_pass_active_of_completed now nodes _ n hc,
    (discover_seen_pass_frame now nodes _).2.1,
    (discover_seen_pass_frame now nodes _).2.2.1,
    fun h => discover_seen_pass_last_seen now nodes _ n h⟩

/-- Witness for C8: discovery at time 10 reporting the Completed node `A`
(and a new node `B`): completed set, `A`-activity, counts and completion
times unchanged; `A` is stamped as seen at 10. -/
theorem C8_witness :
    (discover_nodes_update 10 ["A", "B"] stateCompA).completed_nodes =
      stateCompA.completed_nodes ∧
    (("A" ∈ (discover_nodes_update 10 ["A", "B"] stateCompA).active_nodes) ↔
      "A" ∈ stateCompA.active_nodes) ∧
    (discover_nodes_update 10 ["A", "B"] stateCompA).node_telemetry_count =
      stateCompA.node_telemetry_count ∧
    (discover_nodes_update 10 ["A", "B"] stateCompA).node_completion_time =
      stateCompA.node_completion_time ∧
    dlookup (discover_nodes_update 10 ["A", "B"] stateCompA).node_last_seen
      "A" = some 10 := by
  have h := C8_completed_node_discovery 10 ["A", "B"] stateCompA "A"
    (by decide)
  exact ⟨h.1, h.2.1, h.2.2.1, h.2.2.2.1, h.2.2.2.2 (by decide)⟩

/-! ## Claim C4 — which nodes a cycle polls for telemetry -/

theorem mem_dinsert {α : Type} (l : List (String × α)) (k : String) (v : α)
    (p : String × α) (h : p ∈ dinsert l k v) : p ∈ l ∨ p = (k, v) := by
  induction l with
  | nil =>
    simp [dinsert] at h
    exact Or.inr h
  | cons hd tl ih =>
    by_cases hh : hd.1 = k
    · simp only [dinsert, if_pos hh, List.mem_cons] at h
      rcases h with h | h
      · right
        rw [h, hh]
      · left
        exact List.mem_cons_of_mem _ h
    · simp only [dinsert, if_neg hh, List.mem_cons] at h
      rcases h with h | h
      · left
        exact h ▸ List.mem_cons_self _ _
      · rcases ih h with h' | h'
        · left
          exact List.mem_cons_of_mem _ h'
        · right
          exact h'

theorem mem_keys_dinsert {α : Type} (l : List (String × α)) (k a : String)
    (v : α) :
    a ∈ (dinsert l k v).map Prod.fst ↔ a ∈ l.map Prod.fst ∨ a = k := by
  induction l with
  | nil => simp [dinsert]
  | cons hd tl ih =>
    obtain ⟨k1, v1⟩ := hd
    by_cases hh : k1 = k
    · subst hh
      have hstep : dinsert ((k1, v1) :: tl) k1 v = (k1, v) :: tl := by
        simp [dinsert]
      rw [hstep]
      simp only [List.map_cons, List.mem_cons]
      constructor
      · exact Or.inl
      · rintro ((h | h) | h)
        · exact Or.inl h
        · exact Or.inr h
        · exact Or.inl h
    · simp only [dinsert, if_neg hh, List.map_cons, List.mem_cons, ih]
      tauto

theorem nodup_keys_dinsert {α : Type} (l : List (String × α)) (k : String)
    (v : α) (h : (l.map Prod.fst).Nodup) :
    ((dinsert l k v).map Prod.fst).Nodup := by
  induction l with
  | nil => simp [dinsert]
  | cons hd tl ih =>
    obtain ⟨k1, v1⟩ := hd
    by_cases hh : k1 = k
    · subst hh
      simpa only [dinsert, if_pos rfl, List.map_cons] using h
    · simp only [List.map_cons, List.nodup_cons] at h
      simp only [dinsert, if_neg hh, List.map_cons, List.nodup_cons]
      refine ⟨?_, ih h.2⟩
      intro hmem
      rcases (mem_keys_dinsert tl k k1 v).mp hmem with h' | h'
      · exact h.1 h'
      · exact hh h'

theorem tele_step_cases (oracle : List (String × List (String × Int)))
    (node : String) (acc : List (String × List (String × Int))) :
    tele_step oracle node acc = acc ∨
      ∃ tele, dlookup oracle node = some tele ∧ tele ≠ [] ∧
        tele_step oracle node acc = dinsert acc node tele := by
  unfold tele_step
  cases hdl : dlookup oracle node with
  | none => exact Or.inl rfl
  | some tele =>
    by_cases he : tele.isEmpty
    · exact Or.inl (if_pos he)
    · refine Or.inr ⟨tele, rfl, ?_, if_neg he⟩
      intro hc
      rw [hc] at he
      exact he rfl

theorem collect_telemetry_pass_values_nonempty
    (oracle : List (String × List (String × Int))) (nodes : List String)
    (acc : List (String × List (String × Int)))
    (hacc : ∀ p ∈ acc, p.2 ≠ []) :
    ∀ p ∈ collect_telemetry_pass oracle nodes acc, p.2 ≠ [] := by
  induction nodes generalizing acc with
  | nil => exact hacc
  | cons m rest ih =>
    simp only [collect_telemetry_pass]
    rcases tele_step_cases oracle m acc with h | ⟨tele, _, hne, h⟩
    · rw [h]
      exact ih acc hacc
    · rw [h]
      refine ih _ ?_
      intro p hp
      rcases mem_dinsert acc m tele p hp with hm | hm
      · exact hacc p hm
      · rw [hm]
        exact hne

theorem nodup_keys_collect_telemetry_pass
    (oracle : List (String × List (String × Int))) (nodes : List String)
    (acc : List (String × List (String × Int)))
    (hacc : (acc.map Prod.fst).Nodup) :
    ((collect_telemetry_pass oracle nodes acc).map Prod.fst).Nodup := by
  induction nodes generalizing acc with
  | nil => exact hacc
  | cons m rest ih =>
    simp only [collect_telemetry_pass]
    rcases tele_step_cases oracle m acc with h | ⟨tele, _, _, h⟩
    · rw [h]
      exact ih acc hacc
    · rw [h]
      exact ih _ (nodup_keys_dinsert acc m tele hacc)

theorem tele_step_spec (oracle : List (String × List (String × Int)))
    (node : String) (acc : List (String × List (String × Int))) :
    (¬ (∃ tele, dlookup oracle node = some tele ∧ tele ≠ []) ∧
        tele_step oracle node acc = acc) ∨
    (∃ tele, dlookup oracle node = some tele ∧ tele ≠ [] ∧
        tele_step oracle node acc = dinsert acc node tele) := by
  unfold tele_step
  cases hdl : dlookup oracle node with
  | none =>
    refine Or.inl ⟨?_, rfl⟩
    rintro ⟨t, ht, _⟩
    cases ht
  | some tele =>
    by_cases he : tele.isEmpty
    · refine Or.inl ⟨?_, if_pos he⟩
      rintro ⟨t, ht, htne⟩
      cases ht
      exact htne (List.isEmpty_iff.mp he)
    · refine Or.inr ⟨tele, rfl, ?_, if_neg he⟩
      intro hc
      rw [hc] at he
      exact he rfl

theorem mem_keys_collect_telemetry_pass
    (oracle : List (String × List (String × Int))) (nodes : List String)
    (acc : List (String × List (String × Int))) (n : String) :
    n ∈ (collect_telemetry_pass oracle nodes acc).map Prod.fst ↔
      n ∈ acc.map Prod.fst ∨
        (n ∈ nodes ∧ ∃ tele, dlookup oracle n = some tele ∧ tele ≠ []) := by
  induction nodes generalizing acc with
  | nil => simp [collect_telemetry_pass]
  | cons m rest ih =>
    simp only [collect_telemetry_pass]
    rw [ih]
    rcases tele_step_spec oracle m acc with ⟨hno, h⟩ | ⟨tele, hdl, hne, h⟩
    · rw [h]
      constructor
      · rintro (ha | ⟨h1, h2⟩)
        · exact Or.inl ha
        · exact Or.inr ⟨List.mem_cons_of_mem _ h1, h2⟩
      · rintro (ha | ⟨h1, h2⟩)
        · exact Or.inl ha
        · rcases List.mem_cons.mp h1 with h1 | h1
          · exact absurd (h1 ▸ h2) hno
          · exact Or.inr ⟨h1, h2⟩
    · rw [h]
      constructor
      · rintro (ha | ⟨h1, h2⟩)
        · rcases (mem_keys_dinsert acc m n tele).mp ha with ha | ha
          · exact Or.inl ha
          · exact Or.inr ⟨ha ▸ List.mem_cons_self m rest,
              ha ▸ ⟨tele, hdl, hne⟩⟩
        · exact Or.inr ⟨List.mem_cons_of_mem _ h1, h2⟩
      · rintro (ha | ⟨h1, h2⟩)
        · exact Or.inl ((mem_keys_dinsert acc m n tele).mpr (Or.inl ha))
        · rcases List.mem_cons.mp h1 with h1 | h1
          · exact Or.inl ((mem_keys_dinsert acc m n tele).mpr (Or.inr h1))
          · exact Or.inr ⟨h1, h2⟩

theorem telemetry_log_pass_frame (ts : Int)
    (batch : List (String × List (String × Int))) (s : LoggerState) :
    (telemetry_log_pass ts batch s).1.discovered_nodes =
      s.discovered_nodes ∧
    (telemetry_log_pass ts batch s).1.active_nodes = s.active_nodes ∧
    (telemetry_log_pass ts batch s).1.completed_nodes = s.completed_nodes ∧
    (telemetry_log_pass ts batch s).1.node_last_seen = s.node_last_seen ∧
    (telemetry_log_pass ts batch s).1.node_completion_time =
      s.node_completion_time ∧
    (telemetry_log_pass ts batch s).1.total_cycles = s.total_cycles ∧
    (telemetry_log_pass ts batch s).1.total_telemetry_collected =
      s.total_telemetry_collected ∧
    (telemetry_log_pass ts batch s).1.total_traceroutes =
      s.total_traceroutes := by
  induction batch generalizing s with
  | nil => simp [telemetry_log_pass]
  | cons p rest ih =>
    by_cases he : p.2.isEmpty
    · simp only [telemetry_log_pass, if_pos he]
      exact ih s
    · simp only [telemetry_log_pass, if_neg he]
      exact ih _

theorem telemetry_log_pass_rows (ts : Int)
    (batch : List (String × List (String × Int))) (s : LoggerState)
    (hne : ∀ p ∈ batch, p.2 ≠ []) :
    (telemetry_log_pass ts batch s).2 =
      batch.map (fun p => ⟨ts, p.1, p.2⟩) := by
  induction batch generalizing s with
  | nil => simp [telemetry_log_pass]
  | cons p rest ih =>
    have hp : p.2 ≠ [] := hne p (List.mem_cons_self p rest)
    have he : p.2.isEmpty = false := by
      cases hpp : p.2 with
      | nil => exact absurd hpp hp
      | cons a l => rfl
    simp only [telemetry_log_pass, he, Bool.false_eq_true, if_false,
      List.map_cons]
    rw [ih _ (fun q hq => hne q (List.mem_cons_of_mem p hq))]

theorem telemetry_log_pass_counts (ts : Int)
    (batch : List (String × List (String × Int))) (s : LoggerState)
    (n : String) (hnd : (batch.map Prod.fst).Nodup)
    (hne : ∀ p ∈ batch, p.2 ≠ []) :
    (dlookup (telemetry_log_pass ts batch s).1.node_telemetry_count n).getD
        0 =
      (dlookup s.node_telemetry_count n).getD 0 +
        (if n ∈ batch.map Prod.fst then 1 else 0) := by
  induction batch generalizing s with
  | nil => simp [telemetry_log_pass]
  | cons p rest ih =>
    have hp : p.2 ≠ [] := hne p (List.mem_cons_self p rest)
    have he : p.2.isEmpty = false := by
      cases hpp : p.2 with
      | nil => exact absurd hpp hp
      | cons a l => rfl
    simp only [List.map_cons, List.nodup_cons] at hnd
    simp only [telemetry_log_pass, he, Bool.false_eq_true, if_false]
    rw [ih _ hnd.2 (fun q hq => hne q (List.mem_cons_of_mem p hq))]
    by_cases hn : n = p.1
    · subst hn
      rw [dlookup_dinsert_self]
      rw [if_neg (fun hmem => hnd.1 hmem)]
      simp
    · rw [dlookup_dinsert_ne _ _ _ _ (fun e => hn e.symm)]
      have : (n ∈ (p :: rest).map Prod.fst) ↔ n ∈ rest.map Prod.fst := by
        simp only [List.map_cons, List.mem_cons]
        constructor
        · rintro (h | h)
          · exact absurd h hn
          · exact h
        · exact Or.inr
      by_cases hmem : n ∈ rest.map Prod.fst
      · rw [if_pos hmem, if_pos (this.mpr hmem)]
      · rw [if_neg hmem, if_neg (fun h => hmem (this.mp h))]

theorem completion_pass_frame (cfg : Config) (now : Int) (l : List String)
    (s : LoggerState) :
    (completion_pass cfg now l s).1.discovered_nodes = s.discovered_nodes ∧
    (completion_pass cfg now l s).1.node_last_seen = s.node_last_seen ∧
    (completion_pass cfg now l s).1.node_telemetry_count =
      s.node_telemetry_count ∧
    (completion_pass cfg now l s).1.total_cycles = s.total_cycles ∧
    (completion_pass cfg now l s).1.total_telemetry_collected =
      s.total_telemetry_collected ∧
    (completion_pass cfg now l s).1.total_traceroutes =
      s.total_traceroutes := by
  induction l generalizing s with
  | nil => simp [completion_pass]
  | cons m rest ih =>
    by_cases hc : check_node_completion cfg now s m
    · simp only [completion_pass, if_pos hc]
      exact ih _
    · simp only [completion_pass, if_neg hc]
      exact ih s

theorem runCycle_no_trace (cfg : Config) (env : CycleEnv) (s : LoggerState)
    (hnn : env.nodes.isEmpty = false) (hnt : cfg.no_trace = true) :
    runCycle cfg env s = .ok
      { state := (update_node_completion_status cfg env.now
          (telemetry_stage env.now
            (collect_telemetry_batch env.tele env.nodes)
            (discover_nodes_update env.now env.nodes
              { s with total_cycles := s.total_cycles + 1 })).1).1,
        collected := decide (0 < (telemetry_stage env.now
            (collect_telemetry_batch env.tele env.nodes)
            (discover_nodes_update env.now env.nodes
              { s with total_cycles := s.total_cycles + 1 })).2.length),
        teleRows := (telemetry_stage env.now
            (collect_telemetry_batch env.tele env.nodes)
            (discover_nodes_update env.now env.nodes
              { s with total_cycles := s.total_cycles + 1 })).2,
        traceRows := [],
        newlyCompleted := (update_node_completion_status cfg env.now
          (telemetry_stage env.now
            (collect_telemetry_batch env.tele env.nodes)
            (discover_nodes_update env.now env.nodes
              { s with total_cycles := s.total_cycles + 1 })).1).2 } := by
  simp [runCycle, hnn, hnt]

/-- A configuration whose completion threshold is high enough that no node
completes during the examples (traceroute disabled). -/
def cfgHighMin : Config := ⟨99, 1000, true, false, false, false⟩

/-- A state in which node `A` is active and already sampled once. -/
def stateActiveA : LoggerState :=
  ⟨["A"], ["A"], [], [("A", 0)], [("A", 1)], [], 0, 0, 0⟩

/-- A cycle whose discovery result is only `B`, although telemetry for
both `A` and `B` would be available. -/
def envSeesB : CycleEnv :=
  ⟨50, ["B"],
    [("A", [("battery_pct", 77)]), ("B", [("battery_pct", 50)])], [], false⟩

/-- Claim C4 as stated is false on the code: telemetry is batch-collected
for this cycle's DISCOVERY RESULT, not for the active node set.  In the
cycle `envSeesB` from `stateActiveA`, node `A` is in the active set during
collection and its telemetry result would be non-empty, yet no telemetry
row is appended for `A` and its sample count stays unchanged, because `A`
did not appear in this cycle's discovery output `["B"]`. -/
theorem C4_counterexample :
    "A" ∈ (cycleState cfgHighMin envSeesB stateActiveA).active_nodes ∧
    dlookup envSeesB.tele "A" = some [("battery_pct", 77)] ∧
    (dlookup
        (cycleState cfgHighMin envSeesB stateActiveA).node_telemetry_count
        "A").getD 0 =
      (dlookup stateActiveA.node_telemetry_count "A").getD 0 := by
  refine ⟨by decide, by decide, by decide⟩

/-- Claim C4, amended: in every cycle with a non-empty discovery result
(traceroute disabled so the cycle returns normally), telemetry is collected
for exactly the nodes of this cycle's discovery result: the appended rows
are, in order, one row per discovery-result node whose telemetry result is
non-empty, carrying the cycle timestamp; a node has a row iff it is in the
discovery result with a truthy telemetry result; and exactly those nodes
have their telemetry count incremented by one (a per-node absent result
changes nothing for that node). -/
theorem C4_telemetry_targets (cfg : Config) (env : CycleEnv)
    (s : LoggerState) (n : String) (hne : env.nodes ≠ [])
    (hnt : cfg.no_trace = true) :
    ∃ out, runCycle cfg env s = .ok out ∧
      out.teleRows = (collect_telemetry_batch env.tele env.nodes).map
        (fun p => ⟨env.now, p.1, p.2⟩) ∧
      ((∃ r ∈ out.teleRows, r.node = n) ↔
        (n ∈ env.nodes ∧
          ∃ tele, dlookup env.tele n = some tele ∧ tele ≠ [])) ∧
      (dlookup out.state.node_telemetry_count n).getD 0 =
        (dlookup s.node_telemetry_count n).getD 0 +
          (if n ∈ (collect_telemetry_batch env.tele env.nodes).map Prod.fst
            then 1 else 0) := by
  have hie : env.nodes.isEmpty = false := by
    cases hn : env.nodes with
    | nil => exact absurd hn hne
    | cons a l => rfl
  have hvals : ∀ p ∈ collect_telemetry_batch env.tele env.nodes, p.2 ≠ [] :=
    collect_telemetry_pass_values_nonempty env.tele env.nodes []
      (by intro p hp; cases hp)
  have hnd :
      ((collect_telemetry_batch env.tele env.nodes).map Prod.fst).Nodup :=
    nodup_keys_collect_telemetry_pass env.tele env.nodes [] (by simp)
  refine ⟨_, runCycle_no_trace cfg env s hie hnt, ?_, ?_, ?_⟩
  · exact telemetry_log_pass_rows env.now _ _ hvals
  · rw [show ((telemetry_stage env.now
        (collect_telemetry_batch env.tele env.nodes)
        (discover_nodes_update env.now env.nodes
          { s with total_cycles := s.total_cycles + 1 })).2)
        = (telemetry_log_pass env.now
            (collect_telemetry_batch env.tele env.nodes)
            (discover_nodes_update env.now env.nodes
              { s with total_cycles := s.total_cycles + 1 })).2 from rfl,
      telemetry_log_pass_rows env.now _ _ hvals]
    constructor
    · rintro ⟨r, hr, hrn⟩
      rcases List.mem_map.mp hr with ⟨p, hp, hpr⟩
      have : p.1 = n := by rw [← hrn, ← hpr]
      have hkey : n ∈ (collect_telemetry_batch env.tele env.nodes).map
          Prod.fst := this ▸ List.mem_map_of_mem Prod.fst hp
      rcases (mem_keys_collect_telemetry_pass env.tele env.nodes [] n).mp
          hkey with h | h
      · cases h
      · exact h
    · intro h
      have hkey : n ∈ (collect_telemetry_batch env.tele env.nodes).map
          Prod.fst :=
        (mem_keys_collect_telemetry_pass env.tele env.nodes [] n).mpr
          (Or.inr h)
      rcases List.mem_map.mp hkey with ⟨p, hp, hpn⟩
      exact ⟨⟨env.now, p.1, p.2⟩, List.mem_map_of_mem _ hp, hpn⟩
  · set s2 := discover_nodes_update env.now env.nodes
      { s with total_cycles := s.total_cycles + 1 } with hs2
    set st := (telemetry_stage env.now
      (collect_telemetry_batch env.tele env.nodes) s2).1 with hst
    have h1 : (update_node_completion_status cfg
          env.now st).1.node_telemetry_count = st.node_telemetry_count :=
      (completion_pass_frame cfg env.now st.active_nodes st).2.2.1
    have h2 : st.node_telemetry_count =
        (telemetry_log_pass env.now
          (collect_telemetry_batch env.tele env.nodes)
          s2).1.node_telemetry_count := rfl
    have h3 : s2.node_telemetry_count = s.node_telemetry_count :=
      (discover_seen_pass_frame env.now env.nodes _).2.1
    rw [h1, h2, telemetry_log_pass_counts env.now _ _ n hnd hvals, h3]

/-- Witness for C4 (amended): in the cycle `envSeesB`, node `B` — present
in the discovery result with a truthy telemetry result — has its count
incremented from 0 to 1. -/
theorem C4_witness :
    (dlookup
        (cycleState cfgHighMin envSeesB stateActiveA).node_telemetry_count
        "B").getD 0 =
      (dlookup stateActiveA.node_telemetry_count "B").getD 0 + 1 := by
  obtain ⟨out, hok, _, _, hcnt⟩ :=
    C4_telemetry_targets cfgHighMin envSeesB stateActiveA "B"
      (by decide) (by decide)
  have hcs : cycleState cfgHighMin envSeesB stateActiveA = out.state := by
    unfold cycleState
    rw [hok]
  rw [hcs, hcnt]
  decide

/-! ## Claim C3 — lifecycle monotonicity -/

theorem discover_seen_pass_active_mono (now : Int) (nodes : List String)
    (s : LoggerState) (n : String) (h : n ∈ s.active_nodes) :
    n ∈ (discover_seen_pass now nodes s).active_nodes := by
  induction nodes generalizing s with
  | nil => exact h
  | cons m rest ih =>
    simp only [discover_seen_pass]
    by_cases hm : m ∈ s.completed_nodes
    · simp only [if_pos hm]
      exact ih _ h
    · simp only [if_neg hm]
      exact ih _ (mem_sadd_of_mem _ _ _ h)

theorem completion_pass_completed_mono (cfg : Config) (now : Int)
    (l : List String) (s : LoggerState) (n : String)
    (h : n ∈ s.completed_nodes) :
    n ∈ (completion_pass cfg now l s).1.completed_nodes := by
  induction l generalizing s with
  | nil => exact h
  | cons m rest ih =>
    by_cases hc : check_node_completion cfg now s m
    · simp only [completion_pass, if_pos hc]
      exact ih _ (mem_sadd_of_mem _ _ _ h)
    · simp only [completion_pass, if_neg hc]
      exact ih s h

theorem completion_pass_not_active (cfg : Config) (now : Int)
    (l : List String) (s : LoggerState) (n : String)
    (h : n ∉ s.active_nodes) :
    n ∉ (completion_pass cfg now l s).1.active_nodes := by
  induction l generalizing s with
  | nil => exact h
  | cons m rest ih =>
    by_cases hc : check_node_completion cfg now s m
    · simp only [completion_pass, if_pos hc]
      refine ih _ ?_
      intro hmem
      exact h (List.mem_of_mem_erase hmem)
    · simp only [completion_pass, if_neg hc]
      exact ih s h

theorem completion_pass_rank (cfg : Config) (now : Int) (l : List String)
    (s : LoggerState) (n : String) :
    lifecycleRank s n ≤ lifecycleRank (completion_pass cfg now l s).1 n := by
  induction l generalizing s with
  | nil => exact le_refl _
  | cons m rest ih =>
    by_cases hc : check_node_completion cfg now s m
    · simp only [completion_pass, if_pos hc]
      refine le_trans ?_ (ih _)
      unfold lifecycleRank
      by_cases h2 : n ∈ s.completed_nodes
      · rw [if_pos h2, if_pos (show n ∈ sadd s.completed_nodes m from
          mem_sadd_of_mem _ _ _ h2)]
      · rw [if_neg h2]
        by_cases h1 : n ∈ s.active_nodes
        · rw [if_pos h1]
          by_cases hnm : n = m
          · rw [if_pos (show n ∈ sadd s.completed_nodes m from
              (mem_sadd _ _ _).mpr (Or.inr hnm))]
            omega
          · rw [if_neg (fun hmem =>
                h2 ((((mem_sadd _ _ _).mp hmem).resolve_right) hnm)),
              if_pos (List.mem_erase_of_ne hnm |>.mpr h1)]
        · rw [if_neg h1]
          omega
    · simp only [completion_pass, if_neg hc]
      exact ih s

theorem applyOp_rank (s : LoggerState) (op : TrackerOp) (n : String) :
    lifecycleRank s n ≤ lifecycleRank (applyOp s op) n ∧
    (n ∈ s.completed_nodes → n ∈ (applyOp s op).completed_nodes) ∧
    (n ∈ s.completed_nodes → n ∉ s.active_nodes →
      n ∉ (applyOp s op).active_nodes) := by
  cases op with
  | discover now nodes =>
    refine ⟨?_, ?_, ?_⟩
    · unfold applyOp discover_nodes_update
      by_cases h2 : n ∈ s.completed_nodes
      · have hcomp := (discover_seen_pass_frame now nodes
          { s with discovered_nodes :=
              nodes.foldl sadd s.discovered_nodes }).1
        unfold lifecycleRank
        rw [if_pos h2, if_pos (show n ∈ (discover_seen_pass now nodes
          { s with discovered_nodes :=
              nodes.foldl sadd s.discovered_nodes }).completed_nodes from
          by rw [hcomp]; exact h2)]
      · by_cases h1 : n ∈ s.active_nodes
        · have hact := discover_seen_pass_active_mono now nodes
            { s with discovered_nodes :=
                nodes.foldl sadd s.discovered_nodes } n h1
          unfold lifecycleRank
          rw [if_neg h2, if_pos h1]
          by_cases h3 : n ∈ (discover_seen_pass now nodes
              { s with discovered_nodes :=
                  nodes.foldl sadd s.discovered_nodes }).completed_nodes
          · rw [if_pos h3]
            omega
          · rw [if_neg h3, if_pos hact]
        · unfold lifecycleRank
          rw [if_neg h2, if_neg h1]
          omega
    · intro hc
      have hcomp := (discover_seen_pass_frame now nodes
        { s with discovered_nodes :=
            nodes.foldl sadd s.discovered_nodes }).1
      unfold applyOp discover_nodes_update
      rw [hcomp]
      exact hc
    · intro hc ha
      exact fun hmem => ha ((discover_seen_pass_active_of_completed now nodes
        { s with discovered_nodes :=
            nodes.foldl sadd s.discovered_nodes } n hc).mp hmem)
  | telemetry ts oracle nodes =>
    have hframe := telemetry_log_pass_frame ts
      (collect_telemetry_batch oracle nodes) s
    refine ⟨?_, ?_, ?_⟩
    · unfold applyOp lifecycleRank telemetry_stage
      rw [show ((telemetry_log_pass ts (collect_telemetry_batch oracle nodes)
          s).1.completed_nodes) = s.completed_nodes from hframe.2.2.1,
        show ((telemetry_log_pass ts (collect_telemetry_batch oracle nodes)
          s).1.active_nodes) = s.active_nodes from hframe.2.1]
    · intro hc
      unfold applyOp telemetry_stage
      exact hframe.2.2.1.symm ▸ hc
    · intro _ ha
      unfold applyOp telemetry_stage
      exact hframe.2.1.symm ▸ ha
  | completion cfg now =>
    refine ⟨completion_pass_rank cfg now s.active_nodes s n, ?_, ?_⟩
    · intro hc
      exact completion_pass_completed_mono cfg now s.active_nodes s n hc
    · intro _ ha
      exact completion_pass_not_active cfg now s.active_nodes s n ha

/-- Claim C3: lifecycle state is monotone for every node under every
sequence of discovery, telemetry-sampling and completion-evaluation
operations (the operations collection cycles are composed of): the rank
Discovered(0) < Active(1) < Completed(2) never decreases, a node once in
the completed set stays there, and a Completed node outside the active set
is never moved back into it — its reappearance in a discovery result
refreshes only `last_seen_at` (proved separately in the C8 analysis), not
its state. -/
theorem C3_lifecycle_monotone (ops : List TrackerOp) (s : LoggerState)
    (n : String) :
    lifecycleRank s n ≤ lifecycleRank (applyOps s ops) n ∧
    (n ∈ s.completed_nodes → n ∈ (applyOps s ops).completed_nodes) ∧
    (n ∈ s.completed_nodes → n ∉ s.active_nodes →
      n ∉ (applyOps s ops).active_nodes) := by
  induction ops generalizing s with
  | nil =>
    exact ⟨le_refl _, fun h => h, fun _ h => h⟩
  | cons op rest ih =>
    have h1 := applyOp_rank s op n
    have h2 := ih (applyOp s op)
    exact ⟨le_trans h1.1 h2.1, fun hc => h2.2.1 (h1.2.1 hc),
      fun hc ha => h2.2.2 (h1.2.1 hc) (h1.2.2 hc ha)⟩

/-- Witness for C3: on a state where `A` is Completed and inactive, a
discovery reporting `A` and a fresh node `B` followed by a completion
evaluation keeps `A` Completed and out of the active set, and its rank
does not decrease. -/
theorem C3_witness :
    lifecycleRank stateCompA "A" ≤
      lifecycleRank (applyOps stateCompA
        [TrackerOp.discover 10 ["A", "B"],
         TrackerOp.completion cfgStrict 20]) "A" ∧
    "A" ∈ (applyOps stateCompA
        [TrackerOp.discover 10 ["A", "B"],
         TrackerOp.completion cfgStrict 20]).completed_nodes ∧
    "A" ∉ (applyOps stateCompA
        [TrackerOp.discover 10 ["A", "B"],
         TrackerOp.completion cfgStrict 20]).active_nodes := by
  have h := C3_lifecycle_monotone
    [TrackerOp.discover 10 ["A", "B"], TrackerOp.completion cfgStrict 20]
    stateCompA "A"
  exact ⟨h.1, h.2.1 (by decide), h.2.2 (by decide) (by decide)⟩

/-! ## Claim C5 — persistence round-trip -/

/-- Claim C5 as stated is false on the code: the stats document written by
`_save_stats` carries no `node_last_seen` field, so two registries that
differ only in their last-seen timestamps have IDENTICAL snapshots — no
restore function can reconstruct NodeRecords with the same timestamps — and
the spec-modelled restore indeed loses them. -/
theorem C5_counterexample :
    stateCompA ≠ { stateCompA with node_last_seen := [] } ∧
    save_stats 0 0 stateCompA =
      save_stats 0 0 { stateCompA with node_last_seen := [] } ∧
    (restore (save_stats 0 0 stateCompA)).node_last_seen ≠
      stateCompA.node_last_seen := by
  refine ⟨by decide, by decide, by decide⟩

/-- Claim C5, amended: restoring from a snapshot produced by `_save_stats`
yields a registry with identical node sets (hence lifecycle states),
telemetry counts, completion timestamps and run statistics, and the
snapshot preserves the run start time; restoring the same snapshot twice
leaves the registry unchanged (restore is idempotent).  The last-seen
timestamps are NOT serialized and are not reconstructed. -/
theorem C5_round_trip (t0 t1 : Int) (s : LoggerState) (snap : Snapshot) :
    (restore (save_stats t0 t1 s)).discovered_nodes = s.discovered_nodes ∧
    (restore (save_stats t0 t1 s)).active_nodes = s.active_nodes ∧
    (restore (save_stats t0 t1 s)).completed_nodes = s.completed_nodes ∧
    (restore (save_stats t0 t1 s)).node_telemetry_count =
      s.node_telemetry_count ∧
    (restore (save_stats t0 t1 s)).node_completion_time =
      s.node_completion_time ∧
    (restore (save_stats t0 t1 s)).total_cycles = s.total_cycles ∧
    (restore (save_stats t0 t1 s)).total_telemetry_collected =
      s.total_telemetry_collected ∧
    (restore (save_stats t0 t1 s)).total_traceroutes =
      s.total_traceroutes ∧
    (save_stats t0 t1 s).start_time = t0 ∧
    restoreInto snap (restoreInto snap s) = restoreInto snap s := by
  exact ⟨rfl, rfl, rfl, rfl, rfl, rfl, rfl, rfl, rfl, rfl⟩

/-! ## Claim C10 — aggregate counter vs per-node counters -/

theorem telemetry_log_pass_sum (ts : Int)
    (batch : List (String × List (String × Int))) (s : LoggerState) :
    countsSum (telemetry_log_pass ts batch s).1.node_telemetry_count =
      countsSum s.node_telemetry_count +
        (telemetry_log_pass ts batch s).2.length := by
  induction batch generalizing s with
  | nil => simp [telemetry_log_pass]
  | cons p rest ih =>
    by_cases he : p.2.isEmpty
    · simp only [telemetry_log_pass, if_pos he]
      exact ih s
    · simp only [telemetry_log_pass, if_neg he, List.length_cons]
      rw [ih, countsSum_bump]
      omega

/-- The state after recording `k` traceroute rows in the totals. -/
def addTraceTotal (s : LoggerState) (k : Nat) : LoggerState :=
  { s with total_traceroutes := s.total_traceroutes + k }

theorem runCycle_state_cases (cfg : Config) (env : CycleEnv)
    (s : LoggerState) :
    ∃ s2 : LoggerState,
      s2 = discover_nodes_update env.now env.nodes
        { s with total_cycles := s.total_cycles + 1 } ∧
      (cycleState cfg env s = s2 ∨
       cycleState cfg env s =
         (telemetry_stage env.now
           (collect_telemetry_batch env.tele env.nodes) s2).1 ∨
       ∃ k, cycleState cfg env s =
         (completion_pass cfg env.now
           (addTraceTotal (telemetry_stage env.now
             (collect_telemetry_batch env.tele env.nodes) s2).1
             k).active_nodes
           (addTraceTotal (telemetry_stage env.now
             (collect_telemetry_batch env.tele env.nodes) s2).1 k)).1) := by
  refine ⟨discover_nodes_update env.now env.nodes
    { s with total_cycles := s.total_cycles + 1 }, rfl, ?_⟩
  unfold cycleState runCycle
  by_cases hnn : env.nodes.isEmpty
  · simp only [if_pos hnn]
    exact Or.inl trivial
  · simp only [if_neg hnn]
    cases htr : (if cfg.no_trace then Except.ok ([] : List (List PyVal))
        else traceConsume env.now
          (collect_traceroute_batch env.trace env.nodes)) with
    | error e =>
      simp only [htr]
      exact Or.inr (Or.inl trivial)
    | ok rows =>
      simp only [htr]
      exact Or.inr (Or.inr ⟨rows.length, rfl⟩)

theorem cycleState_statsInv (cfg : Config) (env : CycleEnv)
    (s : LoggerState)
    (h : s.total_telemetry_collected = countsSum s.node_telemetry_count) :
    (cycleState cfg env s).total_telemetry_collected =
      countsSum (cycleState cfg env s).node_telemetry_count := by
  obtain ⟨s2, hs2, hcases⟩ := runCycle_state_cases cfg env s
  have hs2c : s2.node_telemetry_count = s.node_telemetry_count := by
    rw [hs2]
    exact (discover_seen_pass_frame _ _ _).2.1
  have hs2t : s2.total_telemetry_collected = s.total_telemetry_collected := by
    rw [hs2]
    exact (discover_seen_pass_frame _ _ _).2.2.2.2.2.1
  have hit : (telemetry_stage env.now
      (collect_telemetry_batch env.tele env.nodes)
      s2).1.total_telemetry_collected =
        countsSum (telemetry_stage env.now
          (collect_telemetry_batch env.tele env.nodes)
          s2).1.node_telemetry_count := by
    show (telemetry_log_pass env.now
        (collect_telemetry_batch env.tele env.nodes)
        s2).1.total_telemetry_collected +
      (telemetry_log_pass env.now
        (collect_telemetry_batch env.tele env.nodes) s2).2.length =
      countsSum (telemetry_log_pass env.now
        (collect_telemetry_batch env.tele env.nodes)
        s2).1.node_telemetry_count
    rw [(telemetry_log_pass_frame env.now _ s2).2.2.2.2.2.2.1,
      telemetry_log_pass_sum env.now _ s2, hs2c, hs2t, h]
  rcases hcases with hcs | hcs | ⟨k, hcs⟩
  · rw [hcs, hs2t, hs2c, h]
  · rw [hcs]
    exact hit
  · rw [hcs]
    have hcp := completion_pass_frame cfg env.now
      (addTraceTotal (telemetry_stage env.now
        (collect_telemetry_batch env.tele env.nodes) s2).1 k).active_nodes
      (addTraceTotal (telemetry_stage env.now
        (collect_telemetry_batch env.tele env.nodes) s2).1 k)
    rw [hcp.2.2.2.2.1, hcp.2.2.1]
    exact hit

/-- Claim C10: after every sequence of collection cycles — whether each
cycle returned normally, was skipped for lack of discovered nodes, or
aborted in the traceroute consumer — the aggregate counter
`total_telemetry_collected` equals the sum over all nodes of
`node_telemetry_count`: the per-node counters and the run-statistics total
move in lockstep (both sit at 0 after `__init__`, so the invariant holds
for the whole run). -/
theorem C10_total_matches_sum (cfg : Config) (envs : List CycleEnv)
    (s : LoggerState)
    (h : s.total_telemetry_collected = countsSum s.node_telemetry_count) :
    (stateAfter cfg envs s).total_telemetry_collected =
      countsSum (stateAfter cfg envs s).node_telemetry_count := by
  induction envs generalizing s with
  | nil => exact h
  | cons e rest ih => exact ih _ (cycleState_statsInv cfg e s h)

/-- Witness for C10: two concrete cycles (one that samples `B`, one with
an empty discovery) from the fresh state keep the total equal to the sum
of the per-node counters. -/
theorem C10_witness :
    (stateAfter cfgHighMin [envSeesB, envNoNodes]
        stateEmpty).total_telemetry_collected =
      countsSum (stateAfter cfgHighMin [envSeesB, envNoNodes]
        stateEmpty).node_telemetry_count := by
  exact C10_total_matches_sum cfgHighMin [envSeesB, envNoNodes] stateEmpty
    (by decide)

/-! ## Claim C9 — stop_when_all_complete terminates the loop -/

theorem countEv_append (ev : Event) (l1 l2 : List Event) :
    countEv ev (l1 ++ l2) = countEv ev l1 + countEv ev l2 := by
  simp [countEv, List.filter_append]

theorem countEv_cons_eq (ev : Event) (l : List Event) :
    countEv ev (ev :: l) = countEv ev l + 1 := by
  simp [countEv, List.filter_cons]

theorem countEv_cons_ne (ev x : Event) (l : List Event) (h : x ≠ ev) :
    countEv ev (x :: l) = countEv ev l := by
  simp [countEv, List.filter_cons, h]

theorem countEv_cyc_cycleEvents (cfg : Config) (out : CycleOut) (b : Bool) :
    countEv Event.cyc (cycleEvents cfg out b) = 0 := by
  unfold cycleEvents
  rw [countEv_append]
  by_cases h1 : cfg.plot_on_completion && !out.newlyCompleted.isEmpty <;>
    by_cases h2 : b || (out.collected && cfg.plot_every_cycle) <;>
      simp [h1, h2, countEv, List.filter_cons]

theorem countEv_final_cycleEvents (cfg : Config) (out : CycleOut)
    (b : Bool) :
    countEv Event.finalReport (cycleEvents cfg out b) = 0 := by
  unfold cycleEvents
  rw [countEv_append]
  by_cases h1 : cfg.plot_on_completion && !out.newlyCompleted.isEmpty <;>
    by_cases h2 : b || (out.collected && cfg.plot_every_cycle) <;>
      simp [h1, h2, countEv, List.filter_cons]

theorem runLoop_cons_ok (cfg : Config) (e : CycleEnv) (rest : List CycleEnv)
    (s : LoggerState) (out : CycleOut) (h : runCycle cfg e s = .ok out) :
    runLoop cfg (e :: rest) s =
      if stopCond cfg out.state then
        (out.state, Event.cyc :: cycleEvents cfg out e.plotDue)
      else
        ((runLoop cfg rest out.state).1,
          Event.cyc :: (cycleEvents cfg out e.plotDue ++
            (runLoop cfg rest out.state).2)) := by
  conv_lhs => unfold runLoop
  simp only [h]

theorem runLoop_cons_error (cfg : Config) (e : CycleEnv)
    (rest : List CycleEnv) (s s1 : LoggerState)
    (h : runCycle cfg e s = .error s1) :
    runLoop cfg (e :: rest) s =
      ((runLoop cfg rest s1).1, Event.cyc :: (runLoop cfg rest s1).2) := by
  conv_lhs => unfold runLoop
  simp only [h]

theorem runLoop_no_final (cfg : Config) (envs : List CycleEnv) :
    ∀ s : LoggerState,
      countEv Event.finalReport (runLoop cfg envs s).2 = 0 := by
  induction envs with
  | nil =>
    intro s
    simp [runLoop, countEv]
  | cons e rest ih =>
    intro s
    cases hrc : runCycle cfg e s with
    | error s1 =>
      rw [runLoop_cons_error cfg e rest s s1 hrc]
      show countEv Event.finalReport
        (Event.cyc :: (runLoop cfg rest s1).2) = 0
      rw [countEv_cons_ne _ _ _ (by decide)]
      exact ih s1
    | ok out =>
      rw [runLoop_cons_ok cfg e rest s out hrc]
      by_cases hsc : stopCond cfg out.state
      · rw [if_pos hsc]
        show countEv Event.finalReport
          (Event.cyc :: cycleEvents cfg out e.plotDue) = 0
        rw [countEv_cons_ne _ _ _ (by decide)]
        exact countEv_final_cycleEvents cfg out e.plotDue
      · rw [if_neg hsc]
        show countEv Event.finalReport
          (Event.cyc :: (cycleEvents cfg out e.plotDue ++
            (runLoop cfg rest out.state).2)) = 0
        rw [countEv_cons_ne _ _ _ (by decide), countEv_append,
          countEv_final_cycleEvents, ih out.state]

theorem runLoop_stop_count (cfg : Config) (pre : List CycleEnv)
    (e : CycleEnv) (rest : List CycleEnv) :
    ∀ s : LoggerState,
      (∃ out, runCycle cfg e (stateAfter cfg pre s) = .ok out) →
      stopCond cfg (cycleState cfg e (stateAfter cfg pre s)) = true →
      (∀ j, j ≤ pre.length →
        stopCond cfg (stateAfter cfg (pre.take j) s) = false) →
      countEv Event.cyc (runLoop cfg (pre ++ e :: rest) s).2 =
        pre.length + 1 := by
  induction pre with
  | nil =>
    intro s hok hdone _
    have h0 : stateAfter cfg [] s = s := rfl
    rw [h0] at hok hdone
    obtain ⟨out, hout⟩ := hok
    have hcs : cycleState cfg e s = out.state := by
      unfold cycleState
      rw [hout]
    rw [hcs] at hdone
    rw [List.nil_append, runLoop_cons_ok cfg e rest s out hout,
      if_pos hdone]
    show countEv Event.cyc
      (Event.cyc :: cycleEvents cfg out e.plotDue) = 0 + 1
    rw [countEv_cons_eq, countEv_cyc_cycleEvents]
  | cons p pre' ih =>
    intro s hok hdone hbefore
    have hcons : ∀ (l : List CycleEnv) (t : LoggerState),
        stateAfter cfg (p :: l) t =
          stateAfter cfg l (cycleState cfg p t) := fun l t => rfl
    cases hrc : runCycle cfg p s with
    | error s1 =>
      have hcs : cycleState cfg p s = s1 := by
        unfold cycleState
        rw [hrc]
      rw [List.cons_append, runLoop_cons_error cfg p _ s s1 hrc]
      show countEv Event.cyc
        (Event.cyc :: (runLoop cfg (pre' ++ e :: rest) s1).2) =
        (p :: pre').length + 1
      rw [countEv_cons_eq]
      rw [ih s1 ?_ ?_ ?_]
      · simp
      · obtain ⟨out, hout⟩ := hok
        rw [hcons, hcs] at hout
        exact ⟨out, hout⟩
      · rw [hcons, hcs] at hdone
        exact hdone
      · intro j hj
        have := hbefore (j + 1) (by simpa using hj)
        rw [List.take_succ_cons, hcons, hcs] at this
        exact this
    | ok out =>
      have hcs : cycleState cfg p s = out.state := by
        unfold cycleState
        rw [hrc]
      have hstop1 : stopCond cfg out.state = false := by
        have h1 := hbefore 1 (by simp)
        rw [show stateAfter cfg ((p :: pre').take 1) s =
          cycleState cfg p s from rfl, hcs] at h1
        exact h1
      rw [List.cons_append, runLoop_cons_ok cfg p _ s out hrc,
        if_neg (by simp [hstop1])]
      show countEv Event.cyc
        (Event.cyc :: (cycleEvents cfg out p.plotDue ++
          (runLoop cfg (pre' ++ e :: rest) out.state).2)) =
        (p :: pre').length + 1
      rw [countEv_cons_eq, countEv_append, countEv_cyc_cycleEvents]
      rw [ih out.state ?_ ?_ ?_]
      · simp
      · obtain ⟨out2, hout2⟩ := hok
        rw [hcons, hcs] at hout2
        exact ⟨out2, hout2⟩
      · rw [hcons, hcs] at hdone
        exact hdone
      · intro j hj
        have := hbefore (j + 1) (by simpa using hj)
        rw [List.take_succ_cons, hcons, hcs] at this
        exact this

/-- Claim C9: with `stop_when_all_complete` configured, if cycle `k + 1`
(environment `e`, after the prefix `pre` of `k` cycles) completes normally
and leaves the active set empty with a non-empty completed set — the stop
condition having been false after every earlier cycle — then the run
executes exactly `k + 1` collection cycles no matter how many further
cycle environments were scheduled, and performs exactly one final report
generation before exiting. -/
theorem C9_stop_when_all_complete (cfg : Config) (pre : List CycleEnv)
    (e : CycleEnv) (rest : List CycleEnv) (s : LoggerState)
    (hok : ∃ out, runCycle cfg e (stateAfter cfg pre s) = .ok out)
    (hdone : stopCond cfg (cycleState cfg e (stateAfter cfg pre s)) = true)
    (hbefore : ∀ j, j ≤ pre.length →
      stopCond cfg (stateAfter cfg (pre.take j) s) = false) :
    countEv Event.cyc (runMain cfg (pre ++ e :: rest) s).2 =
      pre.length + 1 ∧
    countEv Event.finalReport (runMain cfg (pre ++ e :: rest) s).2 = 1 := by
  constructor
  · show countEv Event.cyc ((runLoop cfg (pre ++ e :: rest) s).2 ++
      [Event.finalReport]) = pre.length + 1
    rw [countEv_append, runLoop_stop_count cfg pre e rest s hok hdone
      hbefore]
    simp [countEv, List.filter_cons]
  · show countEv Event.finalReport ((runLoop cfg (pre ++ e :: rest) s).2 ++
      [Event.finalReport]) = 1
    rw [countEv_append, runLoop_no_final cfg _ s]
    simp [countEv, List.filter_cons]

/-- Configuration with `stop_when_all_complete` set (min 3, timeout 10s,
traceroute disabled). -/
def cfgStop : Config := ⟨3, 10, true, false, false, true⟩

/-- A state where `A` is already Completed and `B` is active with enough
samples, last seen at time 0. -/
def stateAlmostDone : LoggerState :=
  ⟨["A", "B"], ["B"], ["A"], [("A", 0), ("B", 0)], [("B", 3)],
    [("A", 1)], 0, 0, 0⟩

/-- A cycle at time 100 whose discovery sees only the Completed node `A`:
`B` stays silent past the timeout and completes, emptying the active set. -/
def envFinishesB : CycleEnv := ⟨100, ["A"], [], [], false⟩

/-- A further scheduled cycle that must never run. -/
def envAfterStop : CycleEnv := ⟨200, ["A"], [], [], false⟩

/-- Witness for C9: from `stateAlmostDone`, the first cycle completes `B`
and empties the active set; the loop runs exactly that one cycle (the
second scheduled environment never runs) and exactly one final report. -/
theorem C9_witness :
    countEv Event.cyc
      (runMain cfgStop ([] ++ envFinishesB :: [envAfterStop])
        stateAlmostDone).2 = 0 + 1 ∧
    countEv Event.finalReport
      (runMain cfgStop ([] ++ envFinishesB :: [envAfterStop])
        stateAlmostDone).2 = 1 := by
  exact C9_stop_when_all_complete cfgStop [] envFinishesB [envAfterStop]
    stateAlmostDone
    ⟨_, runCycle_no_trace cfgStop envFinishesB stateAlmostDone
      (by decide) rfl⟩
    (by decide)
    (by
      intro j hj
      have h0 : j = 0 := Nat.le_zero.mp hj
      subst h0
      decide)

end AutoLogger
